import Mathlib

/-!
# hdy-ssl-scan (`cmd/root.go`): shallow embedding and checked properties

The program drives external commands (ping, docker, git), reads a list file and
appends to output files.  Every effect is recorded as an `Event` in a trace, and
every outcome the outside world can give (a probe failing, a file that cannot be
opened, ...) is an explicit input of the function that observes it.  `os.Exit`
is the `Res.exit` result: it stops the sequential composition at once.

A Go `string` is a sequence of bytes, so it is a `List UInt8` here.
-/

namespace HdySsl

/-! ## Go strings -/

/-- A Go string: an arbitrary sequence of bytes. -/
abbrev GoString := List UInt8

/-- A Go string literal: the UTF-8 bytes of the characters written in the source. -/
def lit (s : String) : GoString := s.data.flatMap String.utf8EncodeChar

/-! ## Effects, results and sequencing -/

/-- The error value of `exec.Cmd.Run`, `Output`, `CombinedOutput`: an
`*exec.ExitError` (the command ran and ended with a non-zero code) or any other
error (the command could not be launched). -/
inductive ExecErr where
  | exitError (code : Nat)
  | other
  deriving DecidableEq, Repr

/-- Where the output of an executed command goes. -/
inductive Sink where
  /-- Go: `cmd.Run()` with no writer set. -/
  | discard
  /-- Go: `cmd.Output()`, standard output is returned to the caller. -/
  | captured
  /-- Go: `cmd.CombinedOutput()`. -/
  | combined
  /-- Go: `cmd.Stdout = file; cmd.Stderr = file`. -/
  | file (name : GoString)
  /-- Go: `io.MultiWriter(os.Stdout, file)` on both streams. -/
  | stdoutAndFile (name : GoString)
  deriving DecidableEq, Repr

/-- One constructor per `fmt.Printf` call site of `root.go` (the colour glyphs
and the formatting of error values are not modelled); `text` is a
`fmt.Println` of a constant string. -/
inductive Msg where
  | text (s : GoString)
  -- Run
  | errorEnsuringImage
  | runStandardError
  | runErrorWithProgram
  -- dependencyChecker
  | pingUnsuccessful (code : Nat)
  | pingFailedToExecute
  | checkInternet
  | dockerCheckFailed
  | checkDocker
  | gitCheckFailed
  | checkGit
  -- ensureSslscanImageExists
  | issuesCheckingImage
  | standardError
  | errorWithProgram
  | imageMissing
  | cloningAndBuilding
  | cloneProblems
  | buildProblems
  | removeFailed
  | setupComplete
  -- processScan
  | runningTestssl
  | runningSslyze
  | runningSslscan
  -- runCommand
  | runningCommand (command : GoString) (args : List GoString)
  | errorOpeningFile
  | runningAcrossAll
  | errorRunning (command : GoString)
  -- readLinesFromFile
  | errorOpeningList (filePath : GoString)
  | errorReadingList (filePath : GoString)
  deriving DecidableEq, Repr

/-- An observable effect of the program. -/
inductive Event where
  /-- Go: `exec.Command(command, args...)` started through `Run`, `Output` or
  `CombinedOutput`. -/
  | exec (command : GoString) (args : List GoString) (out : Sink)
  | print (m : Msg)
  /-- Go: `os.OpenFile(name, os.O_APPEND|os.O_CREATE|os.O_WRONLY, 0644)`. -/
  | osOpenFile (name : GoString)
  /-- Go: `os.Open(path)`. -/
  | osOpen (path : GoString)
  /-- The deferred `file.Close()`. -/
  | fileClose (name : GoString)
  /-- Go: `os.RemoveAll(path)`. -/
  | osRemoveAll (path : GoString)
  /-- The statement `go func(d string) { ... processScan(d, outputToStdout) }(domain)`. -/
  | goFunc (d : GoString) (outputToStdout : Bool)
  /-- The call `wg.Wait()` returning. -/
  | wgWait
  deriving DecidableEq, Repr

/-- How a function call ends: it returns a value, or `os.Exit(code)` ended the
process inside it. -/
inductive Res (α : Type) where
  | ret (a : α)
  | exit (code : Nat)
  deriving DecidableEq, Repr

/-- A computation: the events it performed, in order, and how it ended. -/
structure M (α : Type) where
  trace : List Event
  res : Res α
  deriving DecidableEq, Repr

/-- Sequencing: the second computation runs only when the first one returned. -/
def M.bind {α β : Type} (m : M α) (f : α → M β) : M β :=
  match m.res with
  | .ret a => ⟨m.trace ++ (f a).trace, (f a).res⟩
  | .exit c => ⟨m.trace, .exit c⟩

instance : Monad M where
  pure a := ⟨[], .ret a⟩
  bind := M.bind

/-- Perform one effect. -/
def emit (e : Event) : M Unit := ⟨[e], .ret ()⟩

/-- Perform a sequence of effects. -/
def emitAll (es : List Event) : M Unit := ⟨es, .ret ()⟩

/-- The call `os.Exit(code)`. -/
def osExit {α : Type} (code : Nat) : M α := ⟨[], .exit code⟩

/-! ## Outcomes supplied by the outside world -/

/-- The error returned by each of the three preflight commands (`none` is `nil`). -/
structure Probes where
  ping : Option ExecErr
  docker : Option ExecErr
  git : Option ExecErr

/-- What the steps of `ensureSslscanImageExists` observe. -/
structure Provision where
  /-- Standard output of `docker images -q sslscan:sslscan`. -/
  queryOutput : GoString
  queryErr : Option ExecErr
  clone : Option ExecErr
  build : Option ExecErr
  /-- Whether `os.RemoveAll` returned a non-nil error. -/
  removeErr : Bool

/-- What one call of `runCommand` observes. -/
structure Invocation where
  /-- Whether `os.OpenFile` returned a non-nil error. -/
  openErr : Bool
  /-- The error of `cmd.Run()`. -/
  runErr : Option ExecErr
  deriving DecidableEq, Repr

/-- The three scanning tools of `processScan`. -/
inductive Tool where
  | testssl
  | sslyze
  | sslscan
  deriving DecidableEq, Repr

/-- A file that `os.Open` can open: its bytes, and whether reading it ends in an
error other than end of file. -/
structure FileData where
  content : GoString
  readErr : Bool
  deriving DecidableEq, Repr

/-- Everything a run depends on besides its two flags. -/
structure Env where
  /-- The constant `runtime.GOOS`. -/
  goos : GoString
  /-- The library function `strings.TrimSpace`. -/
  trimSpace : GoString → GoString
  probes : Probes
  provision : Provision
  /-- The files `os.Open` can open, by path. -/
  fs : GoString → Option FileData
  /-- The outcome of each `runCommand` call, by pipeline (position in the
  target sequence) and tool. -/
  scan : Nat → Tool → Invocation

/-! ## dependencyChecker -/

/-- The arguments of the connectivity probe, chosen from `runtime.GOOS`. -/
def pingArgs (goos : GoString) : List GoString :=
  if goos = lit "windows" then [lit "google.com", lit "-n", lit "1"]
  else [lit "google.com", lit "-c", lit "1"]

/-- Go: `dependencyChecker`. -/
def dependencyChecker (goos : GoString) (p : Probes) : M Bool := do
  emit (.exec (lit "ping") (pingArgs goos) .combined)
  match p.ping with
  | some (.exitError code) =>
    emit (.print (.pingUnsuccessful code))
    osExit 1
  | some .other =>
    emit (.print .pingFailedToExecute)
    osExit 1
  | none => pure ()
  emit (.print .checkInternet)
  emit (.exec (lit "docker") [lit "--version"] .discard)
  match p.docker with
  | some _ =>
    emit (.print .dockerCheckFailed)
    osExit 1
  | none => pure ()
  emit (.print .checkDocker)
  emit (.exec (lit "git") [lit "--version"] .discard)
  match p.git with
  | some _ =>
    emit (.print .gitCheckFailed)
    osExit 1
  | none => pure ()
  emit (.print .checkGit)
  return true

/-! ## ensureSslscanImageExists -/

/-- The argument vector given to `exec.Command("docker", ...)` for the build. -/
def sslscanInstallArgs : List GoString :=
  [lit "build", lit "-t", lit "sslscan:sslscan", lit "./sslscan/", lit "--network host"]

/-- The manual-build command printed when the build fails. -/
def manualBuildCommand : GoString :=
  lit "docker build -t sslscan:sslscan ./sslscan/ --network host"

/-- Go: `ensureSslscanImageExists`; the result is the returned `error`. -/
def ensureSslscanImageExists (trimSpace : GoString → GoString) (o : Provision) :
    M (Option ExecErr) := do
  emit (.exec (lit "docker") [lit "images", lit "-q", lit "sslscan:sslscan"] .captured)
  match o.queryErr with
  | some (.exitError _) =>
    emit (.print .issuesCheckingImage)
    emit (.print .standardError)
  | some .other => emit (.print .errorWithProgram)
  | none => pure ()
  if trimSpace o.queryOutput = [] then
    emit (.print .imageMissing)
    emit (.print .cloningAndBuilding)
    emit (.exec (lit "git") [lit "clone", lit "https://github.com/rbsec/sslscan.git"] .discard)
    match o.clone with
    | some _ =>
      emit (.print .cloneProblems)
      osExit 1
    | none => pure ()
    emit (.exec (lit "docker") sslscanInstallArgs .discard)
    match o.build with
    | some _ =>
      emit (.print .buildProblems)
      emit (.print (.text manualBuildCommand))
      osExit 1
    | none => pure ()
    emit (.osRemoveAll (lit "./sslscan/"))
    if o.removeErr then
      emit (.print .removeFailed)
    emit (.print .setupComplete)
  return none

/-! ## runCommand and processScan -/

/-- Go: `runCommand`. -/
def runCommand (command : GoString) (args : List GoString) (outputFile : GoString)
    (outputToStdout : Bool) (o : Invocation) : M Unit := do
  emit (.print (.runningCommand command args))
  emit (.print (.text (lit "\n")))
  emit (.osOpenFile outputFile)
  if o.openErr then
    emit (.print .errorOpeningFile)
  else
    if outputToStdout then
      pure ()
    else
      emit (.print .runningAcrossAll)
    emit (.exec command args
      (if outputToStdout then .stdoutAndFile outputFile else .file outputFile))
    match o.runErr with
    | some _ => emit (.print (.errorRunning command))
    | none => pure ()
    emit (.fileClose outputFile)

/-- Go: `fmt.Sprintf("testssl.%s.txt", domain)`. -/
def testsslFile (domain : GoString) : GoString := lit "testssl." ++ domain ++ lit ".txt"

/-- Go: `fmt.Sprintf("sslyze.%s.txt", domain)`. -/
def sslyzeFile (domain : GoString) : GoString := lit "sslyze." ++ domain ++ lit ".txt"

/-- Go: `fmt.Sprintf("sslscan.%s.txt", domain)`. -/
def sslscanFile (domain : GoString) : GoString := lit "sslscan." ++ domain ++ lit ".txt"

/-- Go: `processScan`. -/
def processScan (domain : GoString) (outputToStdout : Bool) (o : Tool → Invocation) :
    M Unit := do
  emit (.print .runningTestssl)
  runCommand (lit "docker")
    [lit "run", lit "--rm", lit "--network", lit "host", lit "drwetter/testssl.sh", domain]
    (testsslFile domain) outputToStdout (o .testssl)
  emit (.print .runningSslyze)
  runCommand (lit "docker")
    [lit "run", lit "--rm", lit "--network", lit "host", lit "nablac0d3/sslyze:5.0.0", domain]
    (sslyzeFile domain) outputToStdout (o .sslyze)
  emit (.print .runningSslscan)
  runCommand (lit "docker")
    [lit "run", lit "--rm", lit "--network", lit "host", lit "sslscan:sslscan", domain]
    (sslscanFile domain) outputToStdout (o .sslscan)

/-! ## readLinesFromFile and loadDomains -/

/-- Go: `bufio.MaxScanTokenSize`, the size the buffer of a `bufio.Scanner` may
grow to. -/
def maxScanTokenSize : Nat := 64 * 1024

/-- Go: `dropCR` of package `bufio`: drop one trailing carriage return. -/
def dropCR (data : GoString) : GoString :=
  if data.getLast? = some 13 then data.dropLast else data

/-- The error `scanner.Err()` reports. -/
inductive ScanErr where
  /-- Go: `bufio.ErrTooLong`. -/
  | tooLong
  /-- A read error other than end of file. -/
  | read
  deriving DecidableEq, Repr

/-- The loop `for scanner.Scan() { lines = append(lines, scanner.Text()) }` of a
`bufio.Scanner` with the default split function `bufio.ScanLines`, over the
bytes not read yet and the bytes buffered for the current line.  A newline
byte ends the line, which becomes a token after `dropCR`; a buffer that is
full (`maxScanTokenSize` bytes) without a newline is `ErrTooLong`; at the end of
the data a non-empty unterminated line is a last token. -/
def scanLines : GoString → GoString → List GoString × Option ScanErr
  | [], line => if line = [] then ([], none) else ([dropCR line], none)
  | b :: rest, line =>
    if b = 10 then
      (dropCR line :: (scanLines rest []).1, (scanLines rest []).2)
    else if maxScanTokenSize ≤ line.length + 1 then
      ([], some .tooLong)
    else
      scanLines rest (line ++ [b])

/-- The tokens of a whole file and the final `scanner.Err()`. -/
def scanFile (f : FileData) : List GoString × Option ScanErr :=
  match scanLines f.content [] with
  | (lines, some e) => (lines, some e)
  | (lines, none) => (lines, if f.readErr then some .read else none)

/-- Go: `readLinesFromFile`. -/
def readLinesFromFile (fs : GoString → Option FileData) (filePath : GoString) :
    M (List GoString) := do
  emit (.osOpen filePath)
  match fs filePath with
  | none =>
    emit (.print (.errorOpeningList filePath))
    osExit 1
  | some file =>
    match scanFile file with
    | (_, some _) =>
      emit (.print (.errorReadingList filePath))
      osExit 1
    | (lines, none) =>
      emit (.fileClose filePath)
      return lines

/-- Go: `loadDomains`. -/
def loadDomains (fs : GoString → Option FileData) (domainName domainNameList : GoString) :
    M (List GoString) :=
  if domainName ≠ [] then
    pure [domainName]
  else if domainNameList ≠ [] then
    readLinesFromFile fs domainNameList
  else
    pure []

/-! ## Run -/

/-- Go: the local `outputToStdout := len(domains) == 1` of `Run`. -/
def outputToStdout (domains : List GoString) : Bool := domains.length == 1

/-- Go: the function `Run` of `rootCmd`, on the values of the flags `domain` and
`domainList`.  It returns the targets and the flag handed to the goroutines it
started. -/
def Run (env : Env) (domainName domainNameList : GoString) : M (List GoString × Bool) := do
  let ok ← dependencyChecker env.goos env.probes
  if !ok then
    emit (.print (.text (lit "Dependencies not met due to one/all of the following:")))
    emit (.print (.text (lit "\t\t- Ensure Docker and Git are installed")))
    emit (.print (.text (lit "\t\t- Ensure Docker and Git are in $PATH")))
    emit (.print (.text (lit
      "\t\t- Ensure internet connectivity is working and no issues with DNS or host files")))
    return ([], false)
  else
    let err ← ensureSslscanImageExists env.trimSpace env.provision
    match err with
    | some (.exitError _) =>
      emit (.print .errorEnsuringImage)
      emit (.print .runStandardError)
    | some .other => emit (.print .runErrorWithProgram)
    | none => pure ()
    let domains ← loadDomains env.fs domainName domainNameList
    emitAll (domains.map (fun d => Event.goFunc d (outputToStdout domains)))
    emit .wgWait
    return (domains, outputToStdout domains)

/-- The trace of the goroutine started for the target `d` at position `i` of the
target sequence, with the flag `Run` hands to it. -/
def pipeline (env : Env) (flag : Bool) (i : Nat) (d : GoString) : List Event :=
  (processScan d flag (env.scan i)).trace

/-- A whole run of the program. -/
structure RunResult where
  /-- Events of the main goroutine. -/
  main : List Event
  /-- The trace of each goroutine, in the order they were started; they run
  concurrently between their `goFunc` event and `wgWait`. -/
  pipelines : List (List Event)
  exitCode : Nat
  deriving DecidableEq, Repr

/-- Go: `Execute`, after the flags are parsed: `Run`, then exit code 0 unless
`os.Exit` was called. -/
def Execute (env : Env) (domainName domainNameList : GoString) : RunResult :=
  match (Run env domainName domainNameList).res with
  | .ret (domains, flag) =>
    { main := (Run env domainName domainNameList).trace
      pipelines := domains.enum.map (fun id => pipeline env flag id.1 id.2)
      exitCode := 0 }
  | .exit c =>
    { main := (Run env domainName domainNameList).trace, pipelines := [], exitCode := c }

/-! ## Observations on traces -/

/-- The commands executed in a trace, in order. -/
def commands : List Event → List (GoString × List GoString)
  | [] => []
  | .exec c a _ :: es => (c, a) :: commands es
  | _ :: es => commands es

/-- The names given to `os.OpenFile` in a trace, in order. -/
def openedFiles : List Event → List GoString
  | [] => []
  | .osOpenFile n :: es => n :: openedFiles es
  | _ :: es => openedFiles es

/-- The paths given to `os.Open` in a trace, in order. -/
def listReads : List Event → List GoString
  | [] => []
  | .osOpen p :: es => p :: listReads es
  | _ :: es => listReads es

/-- The commands announced by the first statement of `runCommand` (one per call
of `runCommand`), in order. -/
def announced : List Event → List (GoString × List GoString)
  | [] => []
  | .print (.runningCommand c a) :: es => (c, a) :: announced es
  | _ :: es => announced es

/-! ## Vocabulary of the statements -/

/-- The three preflight commands of `dependencyChecker`, in source order. -/
def probeCommands (goos : GoString) : List (GoString × List GoString) :=
  [(lit "ping", pingArgs goos), (lit "docker", [lit "--version"]),
    (lit "git", [lit "--version"])]

/-- How many preflight commands get run: those up to and including the first
one that returns an error. -/
def probesRun (p : Probes) : Nat :=
  if p.ping.isSome then 1 else if p.docker.isSome then 2 else 3

/-- The output file of each tool, as built in `processScan`. -/
def outputFile : Tool → GoString → GoString
  | .testssl, d => testsslFile d
  | .sslyze, d => sslyzeFile d
  | .sslscan, d => sslscanFile d

/-- The components of the program, in the order `Run` goes through them. -/
inductive Step where
  | verifier
  | provisioner
  | loader
  | orchestrator
  deriving DecidableEq, Repr

/-- Position of a component in the order of `Run`. -/
def Step.rank : Step → Nat
  | .verifier => 0
  | .provisioner => 1
  | .loader => 2
  | .orchestrator => 3

/-- The component whose code performs an event: `dependencyChecker` is the
Environment Verifier, `ensureSslscanImageExists` the Tool-Image Provisioner,
`loadDomains` with `readLinesFromFile` the Target Loader, and the goroutines
with `processScan` and `runCommand` the Scan Orchestrator.  The prints of `Run`
itself belong to no component. -/
def stepOf : Event → Option Step
  | .exec c a _ =>
    if c = lit "ping" then some .verifier
    else if a = [lit "--version"] then some .verifier
    else if a.head? = some (lit "run") then some .orchestrator
    else some .provisioner
  | .print m =>
    match m with
    | .pingUnsuccessful _ | .pingFailedToExecute | .checkInternet | .dockerCheckFailed
    | .checkDocker | .gitCheckFailed | .checkGit => some .verifier
    | .issuesCheckingImage | .standardError | .errorWithProgram | .imageMissing
    | .cloningAndBuilding | .cloneProblems | .buildProblems | .removeFailed
    | .setupComplete => some .provisioner
    | .errorOpeningList _ | .errorReadingList _ => some .loader
    | .runningTestssl | .runningSslyze | .runningSslscan | .runningCommand _ _
    | .errorOpeningFile | .runningAcrossAll | .errorRunning _ => some .orchestrator
    | .text _ | .errorEnsuringImage | .runStandardError | .runErrorWithProgram => none
  | .osOpenFile _ => some .orchestrator
  | .osOpen _ => some .loader
  | .fileClose _ => none
  | .osRemoveAll _ => some .provisioner
  | .goFunc _ _ => some .orchestrator
  | .wgWait => some .orchestrator

/-- The content of a list file whose lines are the given strings, each followed
by a newline byte. -/
def listFileContent (lines : List GoString) : GoString :=
  lines.flatMap (fun s => s ++ [10])


/-- The whitespace-separated words of a command line: the maximal runs of
bytes other than the space, read left to right with the word gathered so far. -/
def wordsFrom : GoString → GoString → List GoString
  | [], w => if w = [] then [] else [w]
  | b :: rest, w =>
    if b = 32 then
      if w = [] then wordsFrom rest [] else w :: wordsFrom rest []
    else
      wordsFrom rest (w ++ [b])

/-- The whitespace-separated words of a command line. -/
def words (s : GoString) : List GoString := wordsFrom s []

/-! ## Example environments -/

/-- Whether a byte is ASCII white space (tab, newline, vertical tab, form feed,
carriage return, space). -/
def isAsciiSpace (b : UInt8) : Bool := b = 9 || b = 10 || b = 11 || b = 12 || b = 13 || b = 32

/-- An instance of `Env.trimSpace` for the example environments: it removes
leading and trailing ASCII white space, as `strings.TrimSpace` does on ASCII
strings. -/
def asciiTrimSpace (s : GoString) : GoString :=
  ((s.dropWhile isAsciiSpace).reverse.dropWhile isAsciiSpace).reverse

/-- An environment in which everything succeeds: the probes pass, the image
`sslscan:sslscan` is present, `list.txt` holds the targets `a.com` and `b.com`,
and every tool invocation succeeds. -/
def exampleEnv : Env where
  goos := lit "linux"
  trimSpace := asciiTrimSpace
  probes := ⟨none, none, none⟩
  provision := ⟨lit "3f1c0d2a9b7e\n", none, none, none, false⟩
  fs := fun p => if p = lit "list.txt" then some ⟨lit "a.com\nb.com\n", false⟩ else none
  scan := fun _ _ => ⟨false, none⟩

/-- The example environment with a list file that holds the target `a.com` twice. -/
def duplicateListEnv : Env :=
  { exampleEnv with
    fs := fun p => if p = lit "list.txt" then some ⟨lit "a.com\na.com\n", false⟩ else none }

/-- The example environment with a list file whose only line ends in a
carriage return before its newline. -/
def crlfListEnv : Env :=
  { exampleEnv with
    fs := fun p => if p = lit "list.txt" then some ⟨lit "a.com\r\n", false⟩ else none }

/-- The example environment with a list file whose only line has
`maxScanTokenSize` bytes before its newline. -/
def longLineEnv : Env :=
  { exampleEnv with
    fs := fun p =>
      if p = lit "list.txt" then
        some ⟨listFileContent [List.replicate maxScanTokenSize 97], false⟩
      else none }

/-- The example environment without the image `sslscan:sslscan`: the query
prints nothing, and the clone and the build succeed. -/
def missingImageEnv : Env :=
  { exampleEnv with provision := ⟨[], none, none, none, false⟩ }

/-- The example environment with a failing connectivity probe. -/
def offlineEnv : Env :=
  { exampleEnv with probes := ⟨some (.exitError 2), none, none⟩ }

/-! ## Lemmas -/

theorem M.bind_ret {α β : Type} (m : M α) (f : α → M β) (a : α) (h : m.res = .ret a) :
    (m >>= f) = ⟨m.trace ++ (f a).trace, (f a).res⟩ := by
  show M.bind m f = _
  simp [M.bind, h]

theorem M.bind_exit {α β : Type} (m : M α) (f : α → M β) (c : Nat) (h : m.res = .exit c) :
    (m >>= f) = ⟨m.trace, .exit c⟩ := by
  show M.bind m f = _
  simp [M.bind, h]

theorem dependencyChecker_res (goos : GoString) (p : Probes) :
    (dependencyChecker goos p).res = .ret true ∨ (dependencyChecker goos p).res = .exit 1 := by
  rcases p with ⟨_ | _ | _, _ | _, _ | _⟩ <;>
    first | exact Or.inl rfl | exact Or.inr rfl

theorem ensure_res (trim : GoString → GoString) (o : Provision) :
    (ensureSslscanImageExists trim o).res = .ret none ∨
      (ensureSslscanImageExists trim o).res = .exit 1 := by
  rcases o with ⟨out, _ | _ | _, _ | _, _ | _, _ | _⟩ <;>
    by_cases h : trim out = [] <;>
    simp [ensureSslscanImageExists, h, bind, M.bind, emit, osExit, pure]

theorem Run_checker_exit (env : Env) (d l : GoString)
    (hc : (dependencyChecker env.goos env.probes).res = .exit 1) :
    Run env d l = ⟨(dependencyChecker env.goos env.probes).trace, .exit 1⟩ := by
  rw [Run, M.bind_exit _ _ _ hc]

theorem Run_ensure_exit (env : Env) (d l : GoString)
    (hc : (dependencyChecker env.goos env.probes).res = .ret true)
    (he : (ensureSslscanImageExists env.trimSpace env.provision).res = .exit 1) :
    Run env d l = ⟨(dependencyChecker env.goos env.probes).trace ++
      (ensureSslscanImageExists env.trimSpace env.provision).trace, .exit 1⟩ := by
  rw [Run, M.bind_ret _ _ _ hc]
  simp [M.bind_exit _ _ _ he]

theorem Run_load_exit (env : Env) (d l : GoString) (c : Nat)
    (hc : (dependencyChecker env.goos env.probes).res = .ret true)
    (he : (ensureSslscanImageExists env.trimSpace env.provision).res = .ret none)
    (hl : (loadDomains env.fs d l).res = .exit c) :
    Run env d l = ⟨(dependencyChecker env.goos env.probes).trace ++
      ((ensureSslscanImageExists env.trimSpace env.provision).trace ++
        (loadDomains env.fs d l).trace), .exit c⟩ := by
  rw [Run, M.bind_ret _ _ _ hc]
  simp [M.bind_ret _ _ _ he, M.bind_exit _ _ _ hl]
  simp [bind, M.bind, pure, emit, emitAll]

theorem Run_load_ret (env : Env) (d l : GoString) (ds : List GoString)
    (hc : (dependencyChecker env.goos env.probes).res = .ret true)
    (he : (ensureSslscanImageExists env.trimSpace env.provision).res = .ret none)
    (hl : (loadDomains env.fs d l).res = .ret ds) :
    Run env d l = ⟨(dependencyChecker env.goos env.probes).trace ++
      ((ensureSslscanImageExists env.trimSpace env.provision).trace ++
        ((loadDomains env.fs d l).trace ++
          (ds.map (fun t => Event.goFunc t (outputToStdout ds)) ++ [Event.wgWait]))),
      .ret (ds, outputToStdout ds)⟩ := by
  rw [Run, M.bind_ret _ _ _ hc]
  simp [M.bind_ret _ _ _ he, M.bind_ret _ _ _ hl]
  simp [bind, M.bind, pure, emit, emitAll]

theorem steps_dependencyChecker (goos : GoString) (p : Probes) :
    ∀ x ∈ (dependencyChecker goos p).trace.filterMap stepOf, x = Step.verifier := by
  rcases p with ⟨_ | _ | _, _ | _, _ | _⟩ <;>
    simp +decide [dependencyChecker, bind, M.bind, emit, osExit, pure, stepOf]

theorem steps_ensure (trim : GoString → GoString) (o : Provision) :
    ∀ x ∈ (ensureSslscanImageExists trim o).trace.filterMap stepOf, x = Step.provisioner := by
  rcases o with ⟨out, _ | _ | _, _ | _, _ | _, _ | _⟩ <;>
    by_cases h : trim out = [] <;>
    simp +decide [ensureSslscanImageExists, h, bind, M.bind, emit, osExit, pure, stepOf,
      sslscanInstallArgs]

theorem readLinesFromFile_cases (fs : GoString → Option FileData) (p : GoString) :
    readLinesFromFile fs p = ⟨[.osOpen p, .print (.errorOpeningList p)], .exit 1⟩ ∨
    readLinesFromFile fs p = ⟨[.osOpen p, .print (.errorReadingList p)], .exit 1⟩ ∨
    ∃ lines, readLinesFromFile fs p = ⟨[.osOpen p, .fileClose p], .ret lines⟩ := by
  rcases hf : fs p with _ | file
  · left; simp [readLinesFromFile, hf, bind, M.bind, emit, osExit, pure]
  · rcases hs : scanFile file with ⟨lines, _ | e⟩
    · right; right; exact ⟨lines, by simp [readLinesFromFile, hf, hs, bind, M.bind, emit, pure]⟩
    · right; left; simp [readLinesFromFile, hf, hs, bind, M.bind, emit, osExit, pure]

theorem loadDomains_cases (fs : GoString → Option FileData) (d l : GoString) :
    (∃ ds, loadDomains fs d l = ⟨[], .ret ds⟩) ∨
    loadDomains fs d l = ⟨[.osOpen l, .print (.errorOpeningList l)], .exit 1⟩ ∨
    loadDomains fs d l = ⟨[.osOpen l, .print (.errorReadingList l)], .exit 1⟩ ∨
    ∃ lines, loadDomains fs d l = ⟨[.osOpen l, .fileClose l], .ret lines⟩ := by
  unfold loadDomains
  by_cases hd : d = []
  · by_cases hl : l = []
    · left; exact ⟨[], by simp [hd, hl, pure]⟩
    · right; simpa [hd, hl] using readLinesFromFile_cases fs l
  · left; exact ⟨[d], by simp [hd, pure]⟩

theorem steps_loadDomains (fs : GoString → Option FileData) (d l : GoString) :
    ∀ x ∈ (loadDomains fs d l).trace.filterMap stepOf, x = Step.loader := by
  rcases loadDomains_cases fs d l with ⟨ds, h⟩ | h | h | ⟨ls, h⟩ <;> simp [h, stepOf]

theorem steps_fanOut (ds : List GoString) (b : Bool) :
    ∀ x ∈ (ds.map (fun t => Event.goFunc t b) ++ [Event.wgWait]).filterMap stepOf,
      x = Step.orchestrator := by
  intro x hx
  simp only [List.mem_filterMap, List.mem_append, List.mem_map, List.mem_singleton] at hx
  rcases hx with ⟨e, (⟨t, _, rfl⟩ | rfl), hx⟩ <;> simp [stepOf] at hx <;> exact hx.symm

theorem pairwise_const {s : Step} {t : List Step} (h : ∀ x ∈ t, x = s) :
    t.Pairwise (fun a b => a.rank ≤ b.rank) := by
  refine List.Pairwise.imp_of_mem ?_ (List.pairwise_of_forall (R := fun _ _ => True)
    (fun _ _ => trivial))
  intro a b ha hb _
  rw [h a ha, h b hb]

theorem pairwise_phases (t₁ t₂ t₃ t₄ : List Step)
    (h₁ : ∀ x ∈ t₁, x = Step.verifier) (h₂ : ∀ x ∈ t₂, x = Step.provisioner)
    (h₃ : ∀ x ∈ t₃, x = Step.loader) (h₄ : ∀ x ∈ t₄, x = Step.orchestrator) :
    (t₁ ++ (t₂ ++ (t₃ ++ t₄))).Pairwise (fun a b => a.rank ≤ b.rank) := by
  simp only [List.pairwise_append, List.mem_append]
  refine ⟨pairwise_const h₁, ⟨pairwise_const h₂, ⟨pairwise_const h₃, pairwise_const h₄, ?_⟩, ?_⟩,
    ?_⟩
  · intro a ha b hb
    rw [h₃ a ha, h₄ b hb]; decide
  · intro a ha b hb
    rw [h₂ a ha]
    rcases hb with hb | hb
    · rw [h₃ b hb]; decide
    · rw [h₄ b hb]; decide
  · intro a ha b hb
    rw [h₁ a ha]
    rcases hb with hb | hb | hb
    · rw [h₂ b hb]; decide
    · rw [h₃ b hb]; decide
    · rw [h₄ b hb]; decide

theorem Run_phases (env : Env) (d l : GoString) :
    ∃ t₃ t₄ : List Event, ∃ t₁ t₂ : List Event,
      (Run env d l).trace = t₁ ++ (t₂ ++ (t₃ ++ t₄)) ∧
      (∀ x ∈ t₁.filterMap stepOf, x = Step.verifier) ∧
      (∀ x ∈ t₂.filterMap stepOf, x = Step.provisioner) ∧
      (∀ x ∈ t₃.filterMap stepOf, x = Step.loader) ∧
      (∀ x ∈ t₄.filterMap stepOf, x = Step.orchestrator) := by
  have s₁ := steps_dependencyChecker env.goos env.probes
  have s₂ := steps_ensure env.trimSpace env.provision
  have s₃ := steps_loadDomains env.fs d l
  rcases dependencyChecker_res env.goos env.probes with hc | hc
  · rcases ensure_res env.trimSpace env.provision with he | he
    · rcases hl : (loadDomains env.fs d l).res with ds | c
      · exact ⟨_, _, _, _, by rw [Run_load_ret env d l ds hc he hl], s₁, s₂, s₃,
          steps_fanOut ds _⟩
      · exact ⟨_, [], _, _, by rw [Run_load_exit env d l c hc he hl, List.append_nil], s₁, s₂,
          s₃, by simp⟩
    · exact ⟨[], [], _, _, by rw [Run_ensure_exit env d l hc he]; simp, s₁, s₂, by simp,
        by simp⟩
  · exact ⟨[], [], _, [], by rw [Run_checker_exit env d l hc]; simp, s₁, by simp, by simp,
      by simp⟩

theorem Run_steps_sorted (env : Env) (d l : GoString) :
    ((Run env d l).trace.filterMap stepOf).Pairwise (fun a b => a.rank ≤ b.rank) := by
  obtain ⟨t₃, t₄, t₁, t₂, h, h₁, h₂, h₃, h₄⟩ := Run_phases env d l
  rw [h]
  simp only [List.filterMap_append]
  exact pairwise_phases _ _ _ _ h₁ h₂ h₃ h₄

theorem commands_append (s t : List Event) : commands (s ++ t) = commands s ++ commands t := by
  induction s with
  | nil => rfl
  | cons e s ih => cases e <;> simp [commands, ih]

theorem listReads_append (s t : List Event) :
    listReads (s ++ t) = listReads s ++ listReads t := by
  induction s with
  | nil => rfl
  | cons e s ih => cases e <;> simp [listReads, ih]

theorem commands_fanOut (ds : List GoString) (b : Bool) :
    commands (ds.map (fun t => Event.goFunc t b) ++ [Event.wgWait]) = [] := by
  induction ds with
  | nil => rfl
  | cons t ds ih => simpa [commands] using ih

theorem commands_dependencyChecker_ok (goos : GoString) (p : Probes)
    (h : (dependencyChecker goos p).res = .ret true) :
    commands (dependencyChecker goos p).trace = probeCommands goos := by
  rcases p with ⟨_ | _ | _, _ | _, _ | _⟩ <;>
    first
    | rfl
    | (exfalso; revert h
       simp [dependencyChecker, bind, M.bind, emit, osExit, pure])

theorem listReads_dependencyChecker (goos : GoString) (p : Probes) :
    listReads (dependencyChecker goos p).trace = [] := by
  rcases p with ⟨_ | _ | _, _ | _, _ | _⟩ <;> rfl

theorem ensure_commands_listReads (trim : GoString → GoString) (o : Provision) :
    listReads (ensureSslscanImageExists trim o).trace = [] ∧
    ∃ rest, commands (ensureSslscanImageExists trim o).trace =
      (lit "docker", [lit "images", lit "-q", lit "sslscan:sslscan"]) :: rest := by
  rcases o with ⟨out, _ | _ | _, _ | _, _ | _, _ | _⟩ <;>
    by_cases h : trim out = [] <;>
    simp [ensureSslscanImageExists, h, bind, M.bind, emit, osExit, pure, commands, listReads]

theorem loadDomains_commands (fs : GoString → Option FileData) (d l : GoString) :
    commands (loadDomains fs d l).trace = [] := by
  rcases loadDomains_cases fs d l with ⟨ds, h⟩ | h | h | ⟨ls, h⟩ <;> simp [h, commands]

theorem Run_listReads_after (env : Env) (d l : GoString)
    (h : listReads (Run env d l).trace ≠ []) :
    ∃ pre post rest, (Run env d l).trace = pre ++ post ∧ listReads pre = [] ∧
      commands post = [] ∧
      commands pre = probeCommands env.goos ++
        (lit "docker", [lit "images", lit "-q", lit "sslscan:sslscan"]) :: rest := by
  obtain ⟨he₁, rest, he₂⟩ := ensure_commands_listReads env.trimSpace env.provision
  have hc₁ := listReads_dependencyChecker env.goos env.probes
  rcases dependencyChecker_res env.goos env.probes with hc | hc
  · have hc₂ := commands_dependencyChecker_ok env.goos env.probes hc
    rcases ensure_res env.trimSpace env.provision with he | he
    · rcases hl : (loadDomains env.fs d l).res with ds | c
      · refine ⟨(dependencyChecker env.goos env.probes).trace ++
          (ensureSslscanImageExists env.trimSpace env.provision).trace,
          (loadDomains env.fs d l).trace ++
            (ds.map (fun t => Event.goFunc t (outputToStdout ds)) ++ [Event.wgWait]),
          rest, ?_, ?_, ?_, ?_⟩
        · rw [Run_load_ret env d l ds hc he hl, List.append_assoc]
        · rw [listReads_append, hc₁, he₁]; rfl
        · rw [commands_append, loadDomains_commands, commands_fanOut]; rfl
        · rw [commands_append, hc₂, he₂]
      · refine ⟨(dependencyChecker env.goos env.probes).trace ++
          (ensureSslscanImageExists env.trimSpace env.provision).trace,
          (loadDomains env.fs d l).trace, rest, ?_, ?_, ?_, ?_⟩
        · rw [Run_load_exit env d l c hc he hl, List.append_assoc]
        · rw [listReads_append, hc₁, he₁]; rfl
        · exact loadDomains_commands _ _ _
        · rw [commands_append, hc₂, he₂]
    · exfalso; apply h
      rw [Run_ensure_exit env d l hc he]
      simp only [listReads_append, hc₁, he₁]; rfl
  · exfalso; apply h
    rw [Run_checker_exit env d l hc]
    exact hc₁

/-! ### The line scanner -/

theorem scanLines_line (s : GoString) : ∀ (acc rest : GoString), (10 : UInt8) ∉ s →
    acc.length + s.length < maxScanTokenSize →
    scanLines (s ++ 10 :: rest) acc =
      (dropCR (acc ++ s) :: (scanLines rest []).1, (scanLines rest []).2) := by
  induction s with
  | nil => intro acc rest _ _; simp [scanLines]
  | cons b s ih =>
    intro acc rest hb hlen
    have hb10 : b ≠ 10 := fun h => hb (by simp [h])
    have hs : (10 : UInt8) ∉ s := fun h => hb (by simp [h])
    have hlen2 : acc.length + (s.length + 1) < maxScanTokenSize := by
      simpa using hlen
    have h1 : ¬ maxScanTokenSize ≤ acc.length + 1 := by omega
    have h2 : (acc ++ [b]).length + s.length < maxScanTokenSize := by
      simp only [List.length_append, List.length_cons, List.length_nil]; omega
    have h3 := ih (acc ++ [b]) rest hs h2
    rw [List.cons_append, scanLines]
    simp only [hb10, h1, if_false]
    rw [h3, List.append_assoc, List.singleton_append]

theorem scanLines_content (lines : List GoString)
    (h : ∀ s ∈ lines, (10 : UInt8) ∉ s ∧ s.length < maxScanTokenSize) :
    scanLines (listFileContent lines) [] = (lines.map dropCR, none) := by
  induction lines with
  | nil => rfl
  | cons s lines ih =>
    have hs := h s (by simp)
    have := ih (fun t ht => h t (by simp [ht]))
    simp only [listFileContent, List.flatMap_cons, List.append_assoc, List.singleton_append]
    rw [scanLines_line s [] _ hs.1 (by simpa using hs.2)]
    simp only [listFileContent] at this
    simp [this]

theorem scanLines_tooLong (n : Nat) : ∀ (acc rest : GoString),
    acc.length < maxScanTokenSize → maxScanTokenSize ≤ acc.length + n →
    scanLines (List.replicate n 97 ++ rest) acc = ([], some .tooLong) := by
  induction n with
  | zero => intro acc rest h1 h2; omega
  | succ n ih =>
    intro acc rest h1 h2
    by_cases h : maxScanTokenSize ≤ acc.length + 1
    · simp [List.replicate_succ, scanLines, h]
    · have := ih (acc ++ [97]) rest (by simp; omega) (by simp; omega)
      simp [List.replicate_succ, scanLines, h, this]

theorem dropCR_of_getLast (s : GoString) (h : s.getLast? ≠ some 13) : dropCR s = s := by
  simp [dropCR, h]

theorem lit_testssl : lit "testssl." = [116, 101, 115, 116, 115, 115, 108, 46] := by decide
theorem lit_sslyze : lit "sslyze." = [115, 115, 108, 121, 122, 101, 46] := by decide
theorem lit_sslscan : lit "sslscan." = [115, 115, 108, 115, 99, 97, 110, 46] := by decide

theorem outputFile_injective (t₁ t₂ : Tool) (d₁ d₂ : GoString)
    (h : outputFile t₁ d₁ = outputFile t₂ d₂) : t₁ = t₂ ∧ d₁ = d₂ := by
  cases t₁ <;> cases t₂ <;>
    simp [outputFile, testsslFile, sslyzeFile, sslscanFile, lit_testssl, lit_sslyze,
      lit_sslscan] at h ⊢ <;> exact h

theorem openedFiles_processScan (T : GoString) (b : Bool) (o : Tool → Invocation) :
    openedFiles (processScan T b o).trace = [testsslFile T, sslyzeFile T, sslscanFile T] := by
  generalize h1 : o .testssl = o1
  generalize h2 : o .sslyze = o2
  generalize h3 : o .sslscan = o3
  rcases o1 with ⟨_ | _, _ | _⟩ <;> rcases o2 with ⟨_ | _, _ | _⟩ <;>
    rcases o3 with ⟨_ | _, _ | _⟩ <;> cases b <;>
    simp [processScan, runCommand, h1, h2, h3, bind, M.bind, emit, pure, openedFiles]

theorem files_disjoint (d₁ d₂ : GoString) (h : d₁ ≠ d₂) (b₁ b₂ : Bool)
    (o₁ o₂ : Tool → Invocation) :
    ∀ f ∈ openedFiles (processScan d₁ b₁ o₁).trace,
      f ∉ openedFiles (processScan d₂ b₂ o₂).trace := by
  intro f hf hf2
  rw [openedFiles_processScan] at hf hf2
  simp only [List.mem_cons, List.mem_singleton, List.not_mem_nil, or_false] at hf hf2
  rcases hf with rfl | rfl | rfl <;> rcases hf2 with h2 | h2 | h2
  · exact h (outputFile_injective .testssl .testssl d₁ d₂ h2).2
  · exact h (outputFile_injective .testssl .sslyze d₁ d₂ h2).2
  · exact h (outputFile_injective .testssl .sslscan d₁ d₂ h2).2
  · exact h (outputFile_injective .sslyze .testssl d₁ d₂ h2).2
  · exact h (outputFile_injective .sslyze .sslyze d₁ d₂ h2).2
  · exact h (outputFile_injective .sslyze .sslscan d₁ d₂ h2).2
  · exact h (outputFile_injective .sslscan .testssl d₁ d₂ h2).2
  · exact h (outputFile_injective .sslscan .sslyze d₁ d₂ h2).2
  · exact h (outputFile_injective .sslscan .sslscan d₁ d₂ h2).2

theorem Execute_pipelines (env : Env) (d l : GoString) (ds : List GoString) (b : Bool)
    (h : (Run env d l).res = .ret (ds, b)) :
    (Execute env d l).pipelines = ds.enum.map (fun id => pipeline env b id.1 id.2) := by
  simp [Execute, h]

theorem readLinesFromFile_content (fs : GoString → Option FileData) (path : GoString)
    (lines : List GoString)
    (hfile : fs path = some ⟨listFileContent lines, false⟩)
    (hlines : ∀ s ∈ lines, (10 : UInt8) ∉ s ∧ s.length < maxScanTokenSize) :
    readLinesFromFile fs path =
      ⟨[.osOpen path, .fileClose path], .ret (lines.map dropCR)⟩ := by
  have hs : scanFile ⟨listFileContent lines, false⟩ = (lines.map dropCR, none) := by
    simp [scanFile, scanLines_content lines hlines]
  simp [readLinesFromFile, hfile, hs, bind, M.bind, emit, pure]

theorem readLinesFromFile_tooLong (fs : GoString → Option FileData) (path : GoString) (n : Nat)
    (hfile : fs path = some ⟨listFileContent [List.replicate n 97], false⟩)
    (hn : maxScanTokenSize ≤ n) :
    readLinesFromFile fs path =
      ⟨[.osOpen path, .print (.errorReadingList path)], .exit 1⟩ := by
  have h := scanLines_tooLong n [] [10] (by decide) (by simpa using hn)
  have hs : scanFile ⟨listFileContent [List.replicate n 97], false⟩ = ([], some .tooLong) := by
    simp [scanFile, listFileContent, h]
  simp [readLinesFromFile, hfile, hs, bind, M.bind, emit, osExit, pure]

/-! ## The claims -/

/-- C1. Routing flag: with a non-empty single-target value `d`, whatever the
list source `l` and the files are, `loadDomains` returns exactly `[d]` without
reading anything and the flag `len(domains) == 1` is true, so a run that gets
past the verifier and the provisioner hands `true` to its goroutine; and
whenever the loaded target sequence has two or more entries the flag is
false, whatever the targets are. -/
theorem C1_routing_flag (env : Env) (d l : GoString) :
    (d ≠ [] →
      loadDomains env.fs d l = ⟨[], .ret [d]⟩ ∧ outputToStdout [d] = true ∧
      ((dependencyChecker env.goos env.probes).res = .ret true →
        (ensureSslscanImageExists env.trimSpace env.provision).res = .ret none →
        (Run env d l).res = .ret ([d], true))) ∧
    (∀ ds, (loadDomains env.fs d l).res = .ret ds → 2 ≤ ds.length →
      outputToStdout ds = false ∧
      ((dependencyChecker env.goos env.probes).res = .ret true →
        (ensureSslscanImageExists env.trimSpace env.provision).res = .ret none →
        (Run env d l).res = .ret (ds, false))) := by
  constructor
  · intro hd
    have hl : loadDomains env.fs d l = ⟨[], .ret [d]⟩ := by simp [loadDomains, hd, pure]
    refine ⟨hl, rfl, fun hc he => ?_⟩
    rw [Run_load_ret env d l [d] hc he (by rw [hl])]
    rfl
  · intro ds hl hlen
    have hf : outputToStdout ds = false := by
      simp only [outputToStdout, beq_eq_false_iff_ne, ne_eq]
      omega
    refine ⟨hf, fun hc he => ?_⟩
    rw [Run_load_ret env d l ds hc he hl, hf]

/-- Witness of C1: the single target `example.com` next to a supplied list file
gives the flag `true`, and the two-line list file gives `false`. -/
theorem C1_routing_flag_witness :
    (Run exampleEnv (lit "example.com") (lit "list.txt")).res =
      .ret ([lit "example.com"], true) ∧
    (Run exampleEnv [] (lit "list.txt")).res = .ret ([lit "a.com", lit "b.com"], false) :=
  ⟨((C1_routing_flag exampleEnv (lit "example.com") (lit "list.txt")).1 (by decide)).2.2
      (by decide) (by decide),
    ((C1_routing_flag exampleEnv [] (lit "list.txt")).2 [lit "a.com", lit "b.com"]
      (by decide) (by decide)).2 (by decide) (by decide)⟩


/-- C2. Pipeline order and failure isolation: whatever the target, the flag and
the outcome of each invocation, `processScan` returns after calling `runCommand`
exactly three times, for testssl, sslyze and sslscan in this order, with the
argument vectors `run --rm --network host <image> T`; it tries to open the
three files `testssl.T.txt`, `sslyze.T.txt`, `sslscan.T.txt` in this order; and
it executes the command of every invocation whose file could be opened,
independently of the outcome of the other invocations. -/
theorem C2_pipeline_order (T : GoString) (b : Bool) (o : Tool → Invocation) :
    (processScan T b o).res = .ret () ∧
    announced (processScan T b o).trace =
      [(lit "docker",
          [lit "run", lit "--rm", lit "--network", lit "host", lit "drwetter/testssl.sh", T]),
       (lit "docker",
          [lit "run", lit "--rm", lit "--network", lit "host", lit "nablac0d3/sslyze:5.0.0", T]),
       (lit "docker",
          [lit "run", lit "--rm", lit "--network", lit "host", lit "sslscan:sslscan", T])] ∧
    openedFiles (processScan T b o).trace =
      [lit "testssl." ++ T ++ lit ".txt", lit "sslyze." ++ T ++ lit ".txt",
       lit "sslscan." ++ T ++ lit ".txt"] ∧
    commands (processScan T b o).trace =
      (if (o .testssl).openErr then [] else
        [(lit "docker",
          [lit "run", lit "--rm", lit "--network", lit "host", lit "drwetter/testssl.sh", T])])
      ++ (if (o .sslyze).openErr then [] else
        [(lit "docker",
          [lit "run", lit "--rm", lit "--network", lit "host", lit "nablac0d3/sslyze:5.0.0",
            T])])
      ++ (if (o .sslscan).openErr then [] else
        [(lit "docker",
          [lit "run", lit "--rm", lit "--network", lit "host", lit "sslscan:sslscan", T])]) := by
  generalize h1 : o .testssl = o1
  generalize h2 : o .sslyze = o2
  generalize h3 : o .sslscan = o3
  rcases o1 with ⟨_ | _, _ | _⟩ <;> rcases o2 with ⟨_ | _, _ | _⟩ <;>
    rcases o3 with ⟨_ | _, _ | _⟩ <;> cases b <;>
    simp [processScan, runCommand, h1, h2, h3, bind, M.bind, emit, pure, openedFiles,
      commands, announced, testsslFile, sslyzeFile, sslscanFile]

/-- C3. The file names built by `processScan` are injective on (tool, target):
two of them are equal only for the same tool and the same target; they are the
tool name, a dot, the target and `.txt`; and the three files opened for one
target are disjoint from the three opened for a different target. -/
theorem C3_filename_injective (t₁ t₂ : Tool) (d₁ d₂ : GoString) (b₁ b₂ : Bool)
    (o₁ o₂ : Tool → Invocation) :
    (outputFile t₁ d₁ = outputFile t₂ d₂ → t₁ = t₂ ∧ d₁ = d₂) ∧
    (outputFile .testssl d₁ = lit "testssl" ++ lit "." ++ d₁ ++ lit ".txt" ∧
      outputFile .sslyze d₁ = lit "sslyze" ++ lit "." ++ d₁ ++ lit ".txt" ∧
      outputFile .sslscan d₁ = lit "sslscan" ++ lit "." ++ d₁ ++ lit ".txt") ∧
    openedFiles (processScan d₁ b₁ o₁).trace =
      [outputFile .testssl d₁, outputFile .sslyze d₁, outputFile .sslscan d₁] ∧
    (d₁ ≠ d₂ → ∀ f ∈ openedFiles (processScan d₁ b₁ o₁).trace,
      f ∉ openedFiles (processScan d₂ b₂ o₂).trace) :=
  ⟨outputFile_injective t₁ t₂ d₁ d₂, ⟨rfl, rfl, rfl⟩, openedFiles_processScan d₁ b₁ o₁,
    fun h => files_disjoint d₁ d₂ h b₁ b₂ o₁ o₂⟩

/-- Witness of C3: the file `sslyze.a.com.txt` of target `a.com` is not among the
files of target `b.com`. -/
theorem C3_filename_injective_witness :
    lit "sslyze.a.com.txt" ∉
      openedFiles (processScan (lit "b.com") false (exampleEnv.scan 1)).trace :=
  (C3_filename_injective .sslyze .sslyze (lit "a.com") (lit "b.com") false false
    (exampleEnv.scan 0) (exampleEnv.scan 1)).2.2.2 (by decide) (lit "sslyze.a.com.txt")
    (by decide)

/-- C4 as stated fails: a list file that holds `a.com` twice starts two
pipelines, at positions 0 and 1, that open the same three files. -/
theorem C4_counterexample :
    (Run duplicateListEnv [] (lit "list.txt")).res = .ret ([lit "a.com", lit "a.com"], false) ∧
    (Execute duplicateListEnv [] (lit "list.txt")).pipelines.map openedFiles =
      [[lit "testssl.a.com.txt", lit "sslyze.a.com.txt", lit "sslscan.a.com.txt"],
       [lit "testssl.a.com.txt", lit "sslyze.a.com.txt", lit "sslscan.a.com.txt"]] := by
  decide

/-- C4, amended. In a run that starts its pipelines on the target sequence
`ds`, any two pipelines whose targets are different strings open disjoint sets
of output files. -/
theorem C4_distinct_targets_disjoint_files (env : Env) (d l : GoString)
    (ds : List GoString) (b : Bool) (h : (Run env d l).res = .ret (ds, b))
    (i j : Nat) (ti tj : GoString) (hi : ds[i]? = some ti) (hj : ds[j]? = some tj)
    (hne : ti ≠ tj) :
    ∃ pi pj, (Execute env d l).pipelines[i]? = some pi ∧
      (Execute env d l).pipelines[j]? = some pj ∧
      openedFiles pi = [outputFile .testssl ti, outputFile .sslyze ti, outputFile .sslscan ti] ∧
      ∀ f ∈ openedFiles pi, f ∉ openedFiles pj := by
  refine ⟨pipeline env b i ti, pipeline env b j tj, ?_, ?_, ?_, ?_⟩
  · rw [Execute_pipelines env d l ds b h, List.getElem?_map, List.getElem?_enum, hi]; rfl
  · rw [Execute_pipelines env d l ds b h, List.getElem?_map, List.getElem?_enum, hj]; rfl
  · exact openedFiles_processScan ti b (env.scan i)
  · exact files_disjoint ti tj hne b b (env.scan i) (env.scan j)

/-- Witness of C4: the list file with `a.com` and `b.com`. -/
theorem C4_distinct_targets_disjoint_files_witness :
    ∃ pi pj, (Execute exampleEnv [] (lit "list.txt")).pipelines[0]? = some pi ∧
      (Execute exampleEnv [] (lit "list.txt")).pipelines[1]? = some pj ∧
      openedFiles pi = [outputFile .testssl (lit "a.com"), outputFile .sslyze (lit "a.com"),
        outputFile .sslscan (lit "a.com")] ∧
      ∀ f ∈ openedFiles pi, f ∉ openedFiles pj :=
  C4_distinct_targets_disjoint_files exampleEnv [] (lit "list.txt")
    [lit "a.com", lit "b.com"] false (by decide) 0 1 (lit "a.com") (lit "b.com")
    (by decide) (by decide) (by decide)

/-- C5 as stated fails: the string `a.com` followed by a carriage return
contains no newline, yet from the file that holds it followed by a newline
`readLinesFromFile` returns `a.com` without the carriage return; and a line of
`maxScanTokenSize` bytes makes `readLinesFromFile` exit with code 1. -/
theorem C5_counterexample :
    (10 : UInt8) ∉ lit "a.com\r" ∧
    crlfListEnv.fs (lit "list.txt") = some ⟨listFileContent [lit "a.com\r"], false⟩ ∧
    readLinesFromFile crlfListEnv.fs (lit "list.txt") =
      ⟨[.osOpen (lit "list.txt"), .fileClose (lit "list.txt")], .ret [lit "a.com"]⟩ ∧
    [lit "a.com"] ≠ [lit "a.com\r"] ∧
    longLineEnv.fs (lit "list.txt") =
      some ⟨listFileContent [List.replicate maxScanTokenSize 97], false⟩ ∧
    readLinesFromFile longLineEnv.fs (lit "list.txt") =
      ⟨[.osOpen (lit "list.txt"), .print (.errorReadingList (lit "list.txt"))], .exit 1⟩ := by
  exact ⟨by decide, by decide, by decide, by decide, rfl,
    readLinesFromFile_tooLong _ _ maxScanTokenSize rfl (Nat.le_refl _)⟩

/-- C5, amended. When the list file holds N strings, each without a newline
byte and shorter than `maxScanTokenSize` bytes, each followed by a newline,
`readLinesFromFile` (and `loadDomains` with no single target) returns N
strings in the same order, each being the string of the file with one trailing
carriage return removed if it has one; strings that do not end in a carriage
return come back unchanged.  Nothing else is trimmed, filtered or
de-duplicated. -/
theorem C5_list_loading (fs : GoString → Option FileData) (path : GoString)
    (lines : List GoString)
    (hfile : fs path = some ⟨listFileContent lines, false⟩)
    (hlines : ∀ s ∈ lines, (10 : UInt8) ∉ s ∧ s.length < maxScanTokenSize) :
    readLinesFromFile fs path =
      ⟨[.osOpen path, .fileClose path], .ret (lines.map dropCR)⟩ ∧
    (path ≠ [] → loadDomains fs [] path =
      ⟨[.osOpen path, .fileClose path], .ret (lines.map dropCR)⟩) ∧
    (lines.map dropCR).length = lines.length ∧
    ((∀ s ∈ lines, s.getLast? ≠ some 13) → lines.map dropCR = lines) := by
  have h := readLinesFromFile_content fs path lines hfile hlines
  refine ⟨h, fun hp => ?_, by simp, fun hcr => ?_⟩
  · simp [loadDomains, hp, h]
  · have hid : ∀ s ∈ lines, dropCR s = id s := fun s hs => dropCR_of_getLast s (hcr s hs)
    rw [List.map_congr_left hid, List.map_id]

/-- Witness of C5: a list file with a duplicate, an empty line and an empty last
entry. -/
theorem C5_list_loading_witness :
    readLinesFromFile
        (fun _ => some ⟨listFileContent [lit "a.com", lit "a.com", [], lit " b.com ", []], false⟩)
        (lit "list.txt") =
      ⟨[.osOpen (lit "list.txt"), .fileClose (lit "list.txt")],
        .ret ([lit "a.com", lit "a.com", [], lit " b.com ", []].map dropCR)⟩ ∧
    [lit "a.com", lit "a.com", [], lit " b.com ", []].map dropCR =
      [lit "a.com", lit "a.com", [], lit " b.com ", []] :=
  ⟨(C5_list_loading
      (fun _ => some ⟨listFileContent [lit "a.com", lit "a.com", [], lit " b.com ", []], false⟩)
      (lit "list.txt") [lit "a.com", lit "a.com", [], lit " b.com ", []] rfl (by decide)).1,
    (C5_list_loading
      (fun _ => some ⟨listFileContent [lit "a.com", lit "a.com", [], lit " b.com ", []], false⟩)
      (lit "list.txt") [lit "a.com", lit "a.com", [], lit " b.com ", []] rfl
      (by decide)).2.2.2 (by decide)⟩

/-- C6. Preflight gating: `dependencyChecker` runs the probes ping,
`docker --version`, `git --version` in this order up to and including the first
one that fails; it returns true exactly when all three succeed and never returns
false; and when a probe fails the process ends with exit code 1, the whole run
consisting of the trace of `dependencyChecker` alone: no later probe, no
provisioning command, no list-file read, no pipeline. -/
theorem C6_preflight_gating (env : Env) (d l : GoString) :
    commands (dependencyChecker env.goos env.probes).trace =
      (probeCommands env.goos).take (probesRun env.probes) ∧
    ((dependencyChecker env.goos env.probes).res = .ret true ↔
      env.probes.ping = none ∧ env.probes.docker = none ∧ env.probes.git = none) ∧
    (dependencyChecker env.goos env.probes).res ≠ .ret false ∧
    (¬ (env.probes.ping = none ∧ env.probes.docker = none ∧ env.probes.git = none) →
      (dependencyChecker env.goos env.probes).res = .exit 1 ∧
      Execute env d l = ⟨(dependencyChecker env.goos env.probes).trace, [], 1⟩ ∧
      listReads (Execute env d l).main = [] ∧
      openedFiles (Execute env d l).main = []) := by
  rcases env with ⟨goos, trim, ⟨_ | _ | _, _ | _, _ | _⟩, prov, fs, scan⟩ <;>
    refine ⟨rfl, ?_, ?_, ?_⟩ <;>
    simp [dependencyChecker, bind, M.bind, emit, osExit, pure, Execute, Run, listReads,
      openedFiles]

/-- Witness of C6: with the connectivity probe failing, only `ping` is run and
the run ends with exit code 1 although a list file is supplied. -/
theorem C6_preflight_gating_witness :
    (dependencyChecker offlineEnv.goos offlineEnv.probes).res = .exit 1 ∧
    Execute offlineEnv [] (lit "list.txt") =
      ⟨(dependencyChecker offlineEnv.goos offlineEnv.probes).trace, [], 1⟩ ∧
    listReads (Execute offlineEnv [] (lit "list.txt")).main = [] ∧
    openedFiles (Execute offlineEnv [] (lit "list.txt")).main = [] :=
  (C6_preflight_gating offlineEnv [] (lit "list.txt")).2.2.2 (by decide)

/-- C7. Provisioner idempotence: when the output of the image query is not
blank after `strings.TrimSpace`, `ensureSslscanImageExists` runs the query and
nothing else (no clone, no build, no directory removal, no notice that the
image is missing) and returns nil; two runs in succession with the image
present run exactly the two queries. -/
theorem C7_provisioner_idempotent (trimSpace : GoString → GoString) (o₁ o₂ : Provision)
    (h₁ : trimSpace o₁.queryOutput ≠ []) (h₂ : trimSpace o₂.queryOutput ≠ []) :
    commands (ensureSslscanImageExists trimSpace o₁).trace =
      [(lit "docker", [lit "images", lit "-q", lit "sslscan:sslscan"])] ∧
    (∀ p, Event.osRemoveAll p ∉ (ensureSslscanImageExists trimSpace o₁).trace) ∧
    Event.print .imageMissing ∉ (ensureSslscanImageExists trimSpace o₁).trace ∧
    (ensureSslscanImageExists trimSpace o₁).res = .ret none ∧
    commands (ensureSslscanImageExists trimSpace o₁ >>=
      fun _ => ensureSslscanImageExists trimSpace o₂).trace =
      [(lit "docker", [lit "images", lit "-q", lit "sslscan:sslscan"]),
       (lit "docker", [lit "images", lit "-q", lit "sslscan:sslscan"])] ∧
    (ensureSslscanImageExists trimSpace o₁ >>=
      fun _ => ensureSslscanImageExists trimSpace o₂).res = .ret none := by
  rcases o₁ with ⟨out₁, _ | _ | _, c₁, b₁, r₁⟩ <;>
    rcases o₂ with ⟨out₂, _ | _ | _, c₂, b₂, r₂⟩ <;>
    simp only [] at h₁ h₂ <;>
    simp [ensureSslscanImageExists, h₁, h₂, bind, M.bind, emit, osExit, pure, commands]

/-- Witness of C7: the example environment, whose image query prints an image
id. -/
theorem C7_provisioner_idempotent_witness :
    commands (ensureSslscanImageExists asciiTrimSpace exampleEnv.provision).trace =
      [(lit "docker", [lit "images", lit "-q", lit "sslscan:sslscan"])] ∧
    (ensureSslscanImageExists asciiTrimSpace exampleEnv.provision).res = .ret none :=
  ⟨(C7_provisioner_idempotent asciiTrimSpace exampleEnv.provision exampleEnv.provision
      (by decide) (by decide)).1,
    (C7_provisioner_idempotent asciiTrimSpace exampleEnv.provision exampleEnv.provision
      (by decide) (by decide)).2.2.2.1⟩

/-- C8. Provisioner failure policy: `ensureSslscanImageExists` ends the process
with exit code 1 exactly when the query output is blank and either the clone
fails or the clone succeeds and the build fails; in every other case (a failed
query, a failed removal included) it returns nil, so it never returns a
non-nil error; and after a failed clone the build is not run. -/
theorem C8_provisioner_failure_policy (trimSpace : GoString → GoString) (o : Provision) :
    ((ensureSslscanImageExists trimSpace o).res = .exit 1 ↔
      trimSpace o.queryOutput = [] ∧
        (o.clone ≠ none ∨ (o.clone = none ∧ o.build ≠ none))) ∧
    ((ensureSslscanImageExists trimSpace o).res = .exit 1 ∨
      (ensureSslscanImageExists trimSpace o).res = .ret none) ∧
    (o.clone ≠ none →
      (lit "docker", sslscanInstallArgs) ∉
        commands (ensureSslscanImageExists trimSpace o).trace) := by
  rcases o with ⟨out, _ | _ | _, _ | _, _ | _, _ | _⟩ <;>
    by_cases h : trimSpace out = [] <;>
    simp [ensureSslscanImageExists, h, bind, M.bind, emit, osExit, pure, commands] <;>
    decide

/-- Witness of C8: the image is missing and the clone fails. -/
theorem C8_provisioner_failure_policy_witness :
    (lit "docker", sslscanInstallArgs) ∉
      commands (ensureSslscanImageExists asciiTrimSpace
        ⟨[], none, some (.exitError 128), none, false⟩).trace :=
  (C8_provisioner_failure_policy asciiTrimSpace
    ⟨[], none, some (.exitError 128), none, false⟩).2.2 (by decide)

/-- C9 as stated fails: in a run whose list file cannot be opened, the three
probes and the image query are executed before the Target Loader opens the list
source and exits with code 1. -/
theorem C9_counterexample :
    Run exampleEnv [] (lit "targets.txt") =
      ⟨[.exec (lit "ping") [lit "google.com", lit "-c", lit "1"] .combined,
        .print .checkInternet,
        .exec (lit "docker") [lit "--version"] .discard,
        .print .checkDocker,
        .exec (lit "git") [lit "--version"] .discard,
        .print .checkGit,
        .exec (lit "docker") [lit "images", lit "-q", lit "sslscan:sslscan"] .captured,
        .osOpen (lit "targets.txt"),
        .print (.errorOpeningList (lit "targets.txt"))], .exit 1⟩ ∧
    (Run exampleEnv [] (lit "targets.txt")).trace.filterMap stepOf =
      [.verifier, .verifier, .verifier, .verifier, .verifier, .verifier, .provisioner,
        .loader, .loader] := by
  decide

/-- C9, amended. In every run the steps occur in the order Environment
Verifier, Tool-Image Provisioner, Target Loader, Scan Orchestrator: no event of
a component comes before an event of a component earlier in this order.  In
particular, when the list source is opened, the three preflight probes and the
image query have been executed before, and no command is executed from the
opening of the list source on. -/
theorem C9_step_order (env : Env) (d l : GoString) :
    ((Run env d l).trace.filterMap stepOf).Pairwise (fun a b => a.rank ≤ b.rank) ∧
    (listReads (Run env d l).trace ≠ [] →
      ∃ pre post rest, (Run env d l).trace = pre ++ post ∧ listReads pre = [] ∧
        commands post = [] ∧
        commands pre = probeCommands env.goos ++
          (lit "docker", [lit "images", lit "-q", lit "sslscan:sslscan"]) :: rest) :=
  ⟨Run_steps_sorted env d l, Run_listReads_after env d l⟩

/-- Witness of C9: the run on the two-line list file. -/
theorem C9_step_order_witness :
    ∃ pre post rest, (Run exampleEnv [] (lit "list.txt")).trace = pre ++ post ∧
      listReads pre = [] ∧ commands post = [] ∧
      commands pre = probeCommands exampleEnv.goos ++
        (lit "docker", [lit "images", lit "-q", lit "sslscan:sslscan"]) :: rest :=
  (C9_step_order exampleEnv [] (lit "list.txt")).2 (by decide)

/-- C10, evaluated on the code: when the image is missing and the clone
succeeds, the build is executed with the five arguments of `sslscanInstallArgs`,
the last one being the single string `--network host`, whereas the printed
manual-build command has six words after `docker`, with `--network` and `host`
apart. -/
theorem C10_build_arguments :
    commands
        (ensureSslscanImageExists missingImageEnv.trimSpace missingImageEnv.provision).trace =
      [(lit "docker", [lit "images", lit "-q", lit "sslscan:sslscan"]),
       (lit "git", [lit "clone", lit "https://github.com/rbsec/sslscan.git"]),
       (lit "docker",
        [lit "build", lit "-t", lit "sslscan:sslscan", lit "./sslscan/", lit "--network host"])] ∧
    words manualBuildCommand =
      [lit "docker", lit "build", lit "-t", lit "sslscan:sslscan", lit "./sslscan/",
        lit "--network", lit "host"] ∧
    sslscanInstallArgs ≠ (words manualBuildCommand).tail ∧
    sslscanInstallArgs.length = 5 ∧ (words manualBuildCommand).tail.length = 6 := by
  decide

end HdySsl
